import Mathlib

/-!
# CloudLinux-test: the pipeline orchestrator (task3.c) and the directory lister (task2.c)

A shallow embedding of `main` of `task3.c` (`prog1 && prog2 | prog3 > file`) and of
`ls_helper` / `traverse` of `task2.c`.

The operating system is an explicit environment: the descriptor table of a process is a
function from descriptor numbers to open-file objects, `pipe` and `open` take the lowest free
descriptor numbers, `fork` copies the table into the child, and `wait` reaps one of the
children that have been created and not reaped yet.  The orchestrator records every system
call it makes in a trace.
-/

namespace Libc

/-- The value of `EXIT_SUCCESS` (stdlib.h). -/
def EXIT_SUCCESS : Nat := 0

/-- The value of `EXIT_FAILURE` (stdlib.h). -/
def EXIT_FAILURE : Nat := 1

end Libc

namespace Task3

open Libc

/-! ## Constants and macros of the C library -/

/-- The value of `STDIN_FILENO` (unistd.h). -/
def STDIN_FILENO : Nat := 0

/-- The value of `STDOUT_FILENO` (unistd.h). -/
def STDOUT_FILENO : Nat := 1

/-- The macro `WEXITSTATUS` (sys/wait.h): bits 8..15 of a wait status. -/
def WEXITSTATUS (status : Nat) : Nat := (status / 256) % 256

/-- The wait status of a child that terminated normally with exit code `code`. -/
def W_EXITCODE (code : Nat) : Nat := (code % 256) * 256

/-- The exit code a parent observes after `exit(n)`: the low eight bits of `n`. -/
def exitCodeOf (n : Nat) : Nat := n % 256

/-! ## Descriptor tables -/

/-- The open-file objects a descriptor of the orchestrator or of its children can refer to. -/
inductive FileObj where
  | inherited (n : Nat)
  | pipeRead
  | pipeWrite
  | outFile
  deriving DecidableEq

/-- A descriptor table: descriptor number to open-file object. -/
abbrev FdTable := Nat → Option FileObj

/-- Install `o` at descriptor `fd`. -/
def FdTable.install (t : FdTable) (fd : Nat) (o : FileObj) : FdTable :=
  fun n => if n = fd then some o else t n

/-- The system call `close(fd)`; on a descriptor that is not open it fails and changes
nothing. -/
def close (t : FdTable) (fd : Nat) : FdTable :=
  fun n => if n = fd then none else t n

/-- The system call `dup2(oldfd, newfd)`: when `oldfd` is not open it fails and leaves `newfd`
alone; otherwise `newfd` (closed first if open) refers to the object of `oldfd`. -/
def dup2 (t : FdTable) (oldfd newfd : Nat) : FdTable :=
  match t oldfd with
  | none => t
  | some o => t.install newfd o

/-- The lowest descriptor number below `limit` that is not open. -/
def lowestFree (t : FdTable) (limit : Nat) : Option Nat :=
  (List.range limit).find? (fun n => (t n).isNone)

/-- The system call `pipe`: the read endpoint takes the lowest free descriptor, the write
endpoint the next one.  `ok = false` stands for a failure for a reason outside the table. -/
def sysPipe (t : FdTable) (limit : Nat) (ok : Bool) : Option (Nat × Nat × FdTable) :=
  if ok then
    match lowestFree t limit with
    | none => none
    | some r =>
      let t1 := t.install r .pipeRead
      match lowestFree t1 limit with
      | none => none
      | some w => some (r, w, t1.install w .pipeWrite)
  else none

/-- The system call `open(file, O_WRONLY | O_TRUNC | O_CREAT, ...)`: the output file takes the
lowest free descriptor. -/
def sysOpen (t : FdTable) (limit : Nat) (ok : Bool) : Option (Nat × FdTable) :=
  if ok then
    match lowestFree t limit with
    | none => none
    | some f => some (f, t.install f .outFile)
  else none

/-! ## Children and waiting -/

/-- The three children the orchestrator can create, one per `fork` call site. -/
inductive Child where
  | stage1
  | stage2
  | stage3
  deriving DecidableEq

/-- What happens in a child after its descriptor setup: `execlp` fails, or the program runs
and the child ends with wait status `wstatus`. -/
inductive ChildRun where
  | execFailed
  | ran (wstatus : Nat)
  deriving DecidableEq

/-- The wait status the parent gets for a child.  After a failed `execlp` the child runs
`perror(...); exit(EXIT_FAILURE);`, a normal termination with code `EXIT_FAILURE`. -/
def ChildRun.wstatus : ChildRun → Nat
  | .execFailed => W_EXITCODE EXIT_FAILURE
  | .ran s => s

/-- The system call `wait`: with no unreaped child it fails; otherwise it blocks until one of
them has terminated and reaps it.  `pick` says which one terminates first. -/
def sysWait (unreaped : List Child) (pick : Nat) : Option (Child × List Child) :=
  match unreaped[pick % unreaped.length]? with
  | none => none
  | some c => some (c, unreaped.erase c)

/-! ## The trace of the orchestrator -/

/-- The system operations of the orchestrator process. -/
inductive SysOp where
  | stderr (msg : String)
  | fork (c : Child) (ok : Bool)
  | wait (reaped : Option Child)
  | pipe (res : Option (Nat × Nat))
  | openFile (res : Option Nat)
  | close (fd : Nat)
  | exit (code : Nat)
  deriving DecidableEq

/-- Everything outside the program text that a run of the orchestrator depends on. -/
structure Env where
  /-- The argument count `argc`. -/
  argc : Nat
  /-- The descriptor table the orchestrator starts with. -/
  fds0 : Nat → Option Nat
  /-- The limit on descriptor numbers (`RLIMIT_NOFILE`). -/
  nofile : Nat
  /-- Whether each of the three `fork` calls succeeds. -/
  forkOk : Child → Bool
  /-- Whether `pipe` can succeed. -/
  pipeOk : Bool
  /-- Whether `open` can succeed. -/
  openOk : Bool
  /-- What each child does once created. -/
  childRun : Child → ChildRun
  /-- Which unreaped child terminates first, for the first, second and third `wait`. -/
  pick : Nat → Nat
  /-- The indeterminate initial values of the locals `status1` and `status2`. -/
  status1Init : Nat
  status2Init : Nat

/-- The descriptor table at program start, as open-file objects. -/
def Env.table0 (e : Env) : FdTable := fun n => (e.fds0 n).map FileObj.inherited

/-- The state of the orchestrator process. -/
structure St where
  fds : FdTable
  trace : List SysOp
  unreaped : List Child
  status1 : Nat
  status2 : Nat
  /-- The descriptor table of the stage-2 child at its `execlp`. -/
  child2 : Option FdTable
  /-- The descriptor table of the stage-3 child at its `execlp`. -/
  child3 : Option FdTable

/-- A terminated run of the orchestrator: its exit code and its last state. -/
structure Outcome where
  exitCode : Nat
  st : St

/-- Append an operation to the trace. -/
def St.log (s : St) (op : SysOp) : St := { s with trace := s.trace ++ [op] }

/-- The call `exit(n)`. -/
def St.exit (s : St) (n : Nat) : Outcome :=
  { exitCode := exitCodeOf n, st := s.log (.exit (exitCodeOf n)) }

/-- The calls `perror(msg); exit(EXIT_FAILURE);` (also the `fprintf(stderr, ...)` of the usage
message). -/
def St.fail (s : St) (msg : String) : Outcome :=
  (s.log (.stderr msg)).exit EXIT_FAILURE

/-- The call `wait(&status)`: returns the new state and the value of `status` afterwards
(`old` when the call fails). -/
def St.wait (s : St) (pick : Nat) (old : Nat) (run : Child → ChildRun) : St × Nat :=
  match sysWait s.unreaped pick with
  | none => (s.log (.wait none), old)
  | some (c, rest) => ({ s with unreaped := rest }.log (.wait (some c)), (run c).wstatus)

/-- The call `fork()` in the parent, when it succeeds. -/
def St.forked (s : St) (c : Child) : St :=
  { s with unreaped := s.unreaped ++ [c] }.log (.fork c true)

/-- The call `close(fd)` in the parent. -/
def St.close (s : St) (fd : Nat) : St :=
  { s with fds := Task3.close s.fds fd }.log (.close fd)

/-- The stage-2 child, lines 70-74: its descriptor table at `execlp(prog2, ...)`. -/
def stage2Child (t : FdTable) (pipe_read pipe_write : Nat) : FdTable :=
  let t := close t pipe_read
  let t := close t STDOUT_FILENO
  let t := dup2 t pipe_write STDOUT_FILENO
  close t pipe_write

/-- The stage-3 child, lines 83-91: its descriptor table at `execlp(prog3, ...)`. -/
def stage3Child (t : FdTable) (pipe_read pipe_write fd : Nat) : FdTable :=
  let t := close t pipe_write
  let t := close t STDIN_FILENO
  let t := close t STDOUT_FILENO
  let t := dup2 t pipe_read STDIN_FILENO
  let t := dup2 t fd STDOUT_FILENO
  let t := close t pipe_read
  close t fd

/-- Lines 64-96 of `main`, parent side: the two later forks.  Returns the outcome when the
parent exits here, the state after the third `fork` otherwise.  The result of the third
`fork` is only compared with 0, so the parent goes on when it is -1. -/
def mainSpawn (e : Env) (s : St) (pipe_read pipe_write fd : Nat) : Outcome ⊕ St :=
  if e.forkOk .stage2 = false then
    .inl ((s.log (.fork .stage2 false)).fail "fork 2")
  else
    let s := { s.forked .stage2 with child2 := some (stage2Child s.fds pipe_read pipe_write) }
    if e.forkOk .stage3 = false then
      .inr (s.log (.fork .stage3 false))
    else
      .inr { s.forked .stage3 with child3 := some (stage3Child s.fds pipe_read pipe_write fd) }

/-- Lines 15-99 of `main`, parent side: everything up to the point where the parent starts to
wait for the pipeline.  Returns the outcome when the parent exits before that point, the state
at line 100 otherwise. -/
def mainLaunch (e : Env) : Outcome ⊕ St :=
  let s : St :=
    { fds := e.table0, trace := [], unreaped := [], status1 := e.status1Init,
      status2 := e.status2Init, child2 := none, child3 := none }
  if e.argc ≠ 5 then
    .inl (s.fail "usage")
  else if e.forkOk .stage1 = false then
    .inl ((s.log (.fork .stage1 false)).fail "fork 1")
  else
    let s := s.forked .stage1
    let (s, status1) := s.wait (e.pick 0) s.status1 e.childRun
    let s := { s with status1 := status1 }
    if s.status1 ≠ 0 then
      .inl (s.exit (WEXITSTATUS s.status1))
    else
      match sysPipe s.fds e.nofile e.pipeOk with
      | none => .inl ((s.log (.pipe none)).fail "pipe")
      | some (pipe_read, pipe_write, t) =>
        let s := { s with fds := t }.log (.pipe (some (pipe_read, pipe_write)))
        match sysOpen s.fds e.nofile e.openOk with
        | none => .inl ((s.log (.openFile none)).fail "file")
        | some (fd, t) =>
          let s := { s with fds := t }.log (.openFile (some fd))
          match mainSpawn e s pipe_read pipe_write fd with
          | .inl out => .inl out
          | .inr s =>
            let s := s.close pipe_read
            .inr (s.close pipe_write)

/-- Lines 101-104 of `main`: the parent waits twice and exits with the OR of the two exit
statuses. -/
def mainWait (e : Env) (s : St) : Outcome :=
  let (s, status1) := s.wait (e.pick 1) s.status1 e.childRun
  let s := { s with status1 := status1 }
  let (s, status2) := s.wait (e.pick 2) s.status2 e.childRun
  let s := { s with status2 := status2 }
  s.exit (WEXITSTATUS s.status1 ||| WEXITSTATUS s.status2)

/-- The function `main` of task3.c, parent side. -/
def main (e : Env) : Outcome :=
  match mainLaunch e with
  | .inl out => out
  | .inr s => mainWait e s

/-! ## Reading a trace -/

/-- The children created, in order: the successful `fork` calls of a trace. -/
def created : List SysOp → List Child
  | [] => []
  | .fork c true :: rest => c :: created rest
  | _ :: rest => created rest

/-- The children reaped, in order: the successful `wait` calls of a trace. -/
def reaped : List SysOp → List Child
  | [] => []
  | .wait (some c) :: rest => c :: reaped rest
  | _ :: rest => reaped rest

/-- Whether an operation creates a pipe, opens the output file or forks (successfully or
not). -/
def SysOp.launches : SysOp → Bool
  | .pipe _ => true
  | .openFile _ => true
  | .fork _ _ => true
  | _ => false

/-- The part of a trace after its first `wait`. -/
def afterFirstWait : List SysOp → List SysOp
  | [] => []
  | .wait _ :: rest => rest
  | _ :: rest => afterFirstWait rest

/-- Whether every `fork` of a pipeline child (stage 2 or stage 3) in a trace comes after an
`open` of the output file. -/
def forksAfterOpen : List SysOp → Bool
  | [] => true
  | .openFile _ :: _ => true
  | .fork .stage2 _ :: _ => false
  | .fork .stage3 _ :: _ => false
  | _ :: rest => forksAfterOpen rest

/-! ## Derived notions used in the statements -/

/-- The result of `pipe` at line 48: the table is still the one the program started with. -/
def Env.pipeRes (e : Env) : Option (Nat × Nat × FdTable) :=
  sysPipe e.table0 e.nofile e.pipeOk

/-- The result of `open` at line 58, on the table `pipe` has left. -/
def Env.openRes (e : Env) : Option (Nat × FdTable) :=
  match e.pipeRes with
  | none => none
  | some (_, _, t) => sysOpen t e.nofile e.openOk

/-- The state of the parent at line 100, when it gets there. -/
def stateAtWait (e : Env) : Option St :=
  match mainLaunch e with
  | .inl _ => none
  | .inr s => some s

/-! ## Concrete environments -/

/-- The usual descriptor table at program start: 0, 1 and 2 open, nothing else. -/
def stdFds : Nat → Option Nat := fun n => if n < 3 then some n else none

/-- A run in which everything succeeds: stage 1 exits 0, stage 2 exits 2, stage 3 exits 4. -/
def envOk : Env where
  argc := 5
  fds0 := stdFds
  nofile := 1024
  forkOk := fun _ => true
  pipeOk := true
  openOk := true
  childRun := fun c =>
    match c with
    | .stage1 => .ran 0
    | .stage2 => .ran (W_EXITCODE 2)
    | .stage3 => .ran (W_EXITCODE 4)
  pick := fun _ => 0
  status1Init := 0
  status2Init := 0

/-- As `envOk`, but `execlp(prog1, ...)` fails in the stage-1 child. -/
def envExecFails : Env := { envOk with childRun := fun _ => .execFailed }

/-- As `envOk`, but stage 1 exits with code 3. -/
def envStage1Exits3 : Env := { envOk with childRun := fun _ => .ran (W_EXITCODE 3) }

/-- As `envOk`, but stage 1 is killed by signal 9 (wait status 9). -/
def envStage1Killed : Env := { envOk with childRun := fun _ => .ran 9 }

/-- As `envOk`, but `open` fails. -/
def envOpenFails : Env := { envOk with openOk := false }

/-- As `envOk`, but every child exits 0 and the third `fork` fails. -/
def envFork3Fails : Env :=
  { envOk with forkOk := fun c => decide (c ≠ .stage3), childRun := fun _ => .ran 0 }

/-- As `envOk`, but the program is started with descriptor 0 closed. -/
def envNoStdin : Env := { envOk with fds0 := fun n => if n = 1 ∨ n = 2 then some n else none }

/-- As `envOk`, but every child exits 0. -/
def envAllZero : Env := { envOk with childRun := fun _ => .ran 0 }

/-- The table of the orchestrator of `envOk` when it forks the stage-3 child. -/
def tableOk : FdTable :=
  ((envOk.table0.install 3 .pipeRead).install 4 .pipeWrite).install 5 .outFile

end Task3

namespace Task2

open Libc

/-! ## Constants -/

/-- The value of `PATH_MAX` (linux/limits.h). -/
def PATH_MAX : Nat := 4096

/-- The constant `MAX_DIR_SIZE` of task2.c. -/
def MAX_DIR_SIZE : Nat := 512

/-- A C string without its terminator: the bytes before the NUL. -/
abbrev CStr := List Nat

/-! ## The path buffer -/

/-- The buffer `abs_path` that `ls` allocates, with the log of the indices `traverse` has
stored to.  A store outside the buffer is logged and leaves the bytes alone. -/
structure Buf where
  bytes : List Nat
  writes : List Nat

/-- The assignment `dir_path[i] = v`. -/
def Buf.store (b : Buf) (i v : Nat) : Buf :=
  { bytes := b.bytes.set i v, writes := b.writes ++ [i] }

/-- The string held in the buffer: the bytes before the first NUL. -/
def Buf.cstr (b : Buf) : CStr := b.bytes.takeWhile (fun c => c != 0)

/-- The call `strlen(dir_path)`. -/
def strlen (b : Buf) : Nat := b.cstr.length

/-- The copy loop of `strcat`: store the bytes of `src` from index `i` on. -/
def storeFrom (b : Buf) (i : Nat) : CStr → Buf
  | [] => b
  | c :: rest => storeFrom (b.store i c) (i + 1) rest

/-- The call `strcat(dir_path, src)`: the bytes of `src` from the terminator of `dir_path`
on, then a new terminator. -/
def strcat (b : Buf) (src : CStr) : Buf :=
  let b1 := storeFrom b (strlen b) src
  b1.store (strlen b + src.length) 0

/-! ## The file system -/

/-- The answers of the file system to the calls of task2.c, by path. -/
structure Fs where
  /-- Whether `access(path, F_OK)` succeeds. -/
  access : CStr → Bool
  /-- The result of `realpath`, `none` when it fails; at most `PATH_MAX - 1` bytes. -/
  realpath : CStr → Option CStr
  /-- The result of `stat` and `S_ISDIR`: `none` when `stat` fails. -/
  isDir : CStr → Option Bool
  /-- The names `readdir` yields on the stream of `opendir`, `none` when `opendir` fails. -/
  opendir : CStr → Option (List CStr)

/-- The function `read_entries`: the names that do not start with a dot, at most
`MAX_DIR_SIZE` of them. -/
def read_entries (names : List CStr) : List CStr :=
  (names.filter (fun nm => nm.headD 0 != 46)).take MAX_DIR_SIZE

/-- The function `strcmp` on unsigned bytes. -/
def strcmp : CStr → CStr → Int
  | [], [] => 0
  | [], b :: _ => 0 - (b : Int)
  | a :: _, [] => (a : Int)
  | a :: as, b :: bs => if a = b then strcmp as bs else (a : Int) - (b : Int)

/-- The call `qsort(entries, n, ..., entry_cmp)`: the names in `strcmp` order. -/
def qsort (entries : List CStr) : List CStr :=
  entries.insertionSort (fun a b => strcmp a b ≤ 0)

/-- The loop of `traverse`, lines 165-180, over the entries that are left; `lsHelper` is the
recursive call `ls_helper(dir_path, depth + 1)`.  Printing does not touch the buffer and is
left out. -/
def traverseLoop (lsHelper : Buf → Nat → Option (Buf × Nat)) (path_len depth : Nat) :
    List CStr → Buf → Nat → Option (Buf × Nat)
  | [], b, res => some (b, res)
  | cur_entry_name :: rest, b, res =>
    let b := b.store path_len 0
    let cur_entry_name_len := cur_entry_name.length
    if path_len + cur_entry_name_len < PATH_MAX then
      let b := strcat b cur_entry_name
      let b := b.store (path_len + cur_entry_name_len) 0
      match lsHelper b (depth + 1) with
      | none => none
      | some (b, r) => traverseLoop lsHelper path_len depth rest b (res ||| r)
    else
      traverseLoop lsHelper path_len depth rest b (res ||| EXIT_FAILURE)

/-- The function `traverse`. -/
def traverse (lsHelper : Buf → Nat → Option (Buf × Nat)) (b : Buf) (entries : List CStr)
    (depth : Nat) : Option (Buf × Nat) :=
  let path_len := strlen b
  let b := b.store path_len 47
  let path_len := path_len + 1
  match traverseLoop lsHelper path_len depth entries b EXIT_SUCCESS with
  | none => none
  | some (b, res) => some (b.store (path_len - 1) 0, res)

/-- The function `ls_helper`, with a bound `fuel` on the depth of the recursion; `none` when
the bound is reached. -/
def ls_helper (fs : Fs) : Nat → Buf → Nat → Option (Buf × Nat)
  | 0, _, _ => none
  | fuel + 1, b, depth =>
    match fs.isDir b.cstr with
    | none => some (b, EXIT_FAILURE)
    | some false => some (b, EXIT_SUCCESS)
    | some true =>
      match fs.opendir b.cstr with
      | none => some (b, EXIT_FAILURE)
      | some names =>
        let entries := qsort (read_entries names)
        traverse (ls_helper fs fuel) b entries depth

/-- The buffer after `realpath` has stored the path `p` and its terminator into the
`PATH_MAX` bytes of `malloc`; the other bytes keep the value `fill`. -/
def pathBuf (p : CStr) (fill : Nat) : Buf :=
  { bytes := (p ++ [0] ++ List.replicate (PATH_MAX - (p.length + 1)) fill).take PATH_MAX,
    writes := [] }

/-- The function `ls`; `mallocOk` says whether `malloc` succeeds. -/
def ls (fs : Fs) (mallocOk : Bool) (fill fuel : Nat) (dir_path : CStr) : Option (Buf × Nat) :=
  if fs.access dir_path = false then
    some ({ bytes := [], writes := [] }, EXIT_FAILURE)
  else if mallocOk = false then
    some ({ bytes := [], writes := [] }, EXIT_FAILURE)
  else
    match fs.realpath dir_path with
    | none => some ({ bytes := List.replicate PATH_MAX fill, writes := [] }, EXIT_FAILURE)
    | some p => ls_helper fs fuel (pathBuf p fill) 1

/-! ## A directory whose absolute path has `PATH_MAX - 1` bytes -/

/-- A path of 4095 bytes: fifteen components of 255 letters and one of 254. -/
def deepPath : CStr :=
  (List.replicate 15 (47 :: List.replicate 255 97)).flatten ++ 47 :: List.replicate 254 97

/-- A file system in which `deepPath` is a directory with the entries `.`, `..` and `b`. -/
def deepFs : Fs where
  access := fun _ => true
  realpath := fun _ => some deepPath
  isDir := fun p => some (decide (p = deepPath))
  opendir := fun _ => some [[46], [46, 46], [98]]

end Task2

namespace Task3

open Libc

/-! ## Auxiliary lemmas -/

theorem sysWait_nil (p : Nat) : sysWait [] p = none := by
  simp [sysWait]

theorem sysWait_single (c : Child) (p : Nat) : sysWait [c] p = some (c, []) := by
  simp [sysWait, Nat.mod_one]

theorem sysWait_pair (c d : Child) (h : c ≠ d) (p : Nat) :
    sysWait [c, d] p = some (c, [d]) ∨ sysWait [c, d] p = some (d, [c]) := by
  rcases Nat.mod_two_eq_zero_or_one p with h0 | h1
  · left; simp [sysWait, h0]
  · right
    simp [sysWait, h1, List.erase_cons, h, Ne.symm h]

theorem WEXITSTATUS_lt (s : Nat) : WEXITSTATUS s < 256 :=
  Nat.mod_lt _ (by norm_num)

theorem or_status_lt (a b : Nat) : WEXITSTATUS a ||| WEXITSTATUS b < 256 :=
  Nat.or_lt_two_pow (n := 8) (WEXITSTATUS_lt a) (WEXITSTATUS_lt b)

theorem exitCodeOf_or (a b : Nat) :
    exitCodeOf (WEXITSTATUS a ||| WEXITSTATUS b) = WEXITSTATUS a ||| WEXITSTATUS b :=
  Nat.mod_eq_of_lt (or_status_lt a b)

theorem exitCodeOf_status (a : Nat) : exitCodeOf (WEXITSTATUS a) = WEXITSTATUS a :=
  Nat.mod_eq_of_lt (WEXITSTATUS_lt a)

theorem WEXITSTATUS_exitcode (c : Nat) (h : c < 256) : WEXITSTATUS (W_EXITCODE c) = c := by
  unfold WEXITSTATUS W_EXITCODE
  rw [Nat.mod_eq_of_lt h, Nat.mul_div_cancel _ (by norm_num), Nat.mod_eq_of_lt h]

theorem W_EXITCODE_ne_zero (c : Nat) (h0 : 0 < c) (h : c < 256) : W_EXITCODE c ≠ 0 := by
  unfold W_EXITCODE
  rw [Nat.mod_eq_of_lt h]
  omega

theorem lowestFree_free {t : FdTable} {limit n : Nat} (h : lowestFree t limit = some n) :
    t n = none := by
  unfold lowestFree at h
  have := List.find?_some h
  simpa using this

/-- C1: with four arguments, stage 1 ending with wait status 0 and the pipe, the open and
all forks succeeding, the stage-2 and the stage-3 child are both created and both reaped (in
either order), and the exit code of the orchestrator is the bitwise OR of bits 8..15 of
their two wait statuses, a value below 256. -/
theorem main_exit_is_or_of_pipeline (e : Env)
    (hargc : e.argc = 5) (hfork : ∀ c, e.forkOk c = true)
    (hs1 : (e.childRun .stage1).wstatus = 0)
    (hpipe : e.pipeRes.isSome = true) (hopen : e.openRes.isSome = true) :
    created (main e).st.trace = [.stage1, .stage2, .stage3]
    ∧ (reaped (main e).st.trace = [.stage1, .stage2, .stage3]
        ∨ reaped (main e).st.trace = [.stage1, .stage3, .stage2])
    ∧ (main e).exitCode
        = WEXITSTATUS (e.childRun .stage2).wstatus ||| WEXITSTATUS (e.childRun .stage3).wstatus
    ∧ (main e).exitCode < 256 := by
  obtain ⟨⟨r, w, t1⟩, hp⟩ := Option.isSome_iff_exists.mp hpipe
  have hp2 : sysPipe e.table0 e.nofile e.pipeOk = some (r, w, t1) := hp
  simp only [Env.openRes, hp] at hopen
  obtain ⟨⟨f, t2⟩, ho⟩ := Option.isSome_iff_exists.mp hopen
  have hlt := or_status_lt (e.childRun .stage2).wstatus (e.childRun .stage3).wstatus
  rcases sysWait_pair .stage2 .stage3 (by decide) (e.pick 1) with h | h
  · simp [main, mainLaunch, mainWait, mainSpawn, St.wait, St.forked, St.log, St.close, St.exit,
      sysWait_single, hargc, hfork, hs1, hp2, ho, h, created, reaped, exitCodeOf_or, hlt]
  · simp [main, mainLaunch, mainWait, mainSpawn, St.wait, St.forked, St.log, St.close, St.exit,
      sysWait_single, hargc, hfork, hs1, hp2, ho, h, created, reaped, exitCodeOf_or]
    rw [Nat.lor_comm]
    exact ⟨rfl, hlt⟩

set_option maxRecDepth 100000 in
theorem main_exit_is_or_of_pipeline_witness :
    created (main envOk).st.trace = [.stage1, .stage2, .stage3]
    ∧ (reaped (main envOk).st.trace = [.stage1, .stage2, .stage3]
        ∨ reaped (main envOk).st.trace = [.stage1, .stage3, .stage2])
    ∧ (main envOk).exitCode
        = WEXITSTATUS (envOk.childRun .stage2).wstatus
          ||| WEXITSTATUS (envOk.childRun .stage3).wstatus
    ∧ (main envOk).exitCode < 256 :=
  main_exit_is_or_of_pipeline envOk (by decide) (fun _ => rfl) (by decide) (by decide) (by decide)

theorem or_eq_zero {a b : Nat} (h : a ||| b = 0) : a = 0 ∧ b = 0 := by
  have hbit : ∀ i, (a.testBit i || b.testBit i) = false := by
    intro i
    rw [← Nat.testBit_or, h, Nat.zero_testBit]
  constructor
  · apply Nat.eq_of_testBit_eq
    intro i
    have := hbit i
    simp only [Bool.or_eq_false_iff] at this
    simp [this.1]
  · apply Nat.eq_of_testBit_eq
    intro i
    have := hbit i
    simp only [Bool.or_eq_false_iff] at this
    simp [this.2]

theorem forksAfterOpen_spec (tr : List SysOp) (h : forksAfterOpen tr = true)
    (pre post : List SysOp) (c : Child) (ok : Bool)
    (hsplit : tr = pre ++ SysOp.fork c ok :: post) (hc : c ≠ .stage1) :
    ∃ res, SysOp.openFile res ∈ pre := by
  induction tr generalizing pre with
  | nil => simp at hsplit
  | cons op rest ih =>
    cases pre with
    | nil =>
      simp only [List.nil_append, List.cons.injEq] at hsplit
      obtain ⟨rfl, -⟩ := hsplit
      cases c <;> simp_all [forksAfterOpen]
    | cons p pre2 =>
      simp only [List.cons_append, List.cons.injEq] at hsplit
      obtain ⟨rfl, hrest⟩ := hsplit
      by_cases hop : ∃ res, op = SysOp.openFile res
      · obtain ⟨res, rfl⟩ := hop
        exact ⟨res, List.mem_cons_self _ _⟩
      · have hrec : forksAfterOpen rest = true := by
          cases op with
          | openFile res => exact absurd ⟨res, rfl⟩ hop
          | fork c2 ok2 => cases c2 <;> simp_all [forksAfterOpen]
          | stderr _ => simpa [forksAfterOpen] using h
          | wait _ => simpa [forksAfterOpen] using h
          | pipe _ => simpa [forksAfterOpen] using h
          | close _ => simpa [forksAfterOpen] using h
          | exit _ => simpa [forksAfterOpen] using h
        obtain ⟨res, hres⟩ := ih hrec pre2 hrest
        exact ⟨res, List.mem_cons_of_mem _ hres⟩

/-- C2: when the stage-1 child terminates normally with an exit code `c` in 1..255, the
orchestrator exits with exactly `c`; a stage-1 child whose `execlp` fails is such a child,
with `c = EXIT_FAILURE`. -/
theorem main_propagates_stage1_code (e : Env) (c : Nat)
    (hargc : e.argc = 5) (hfork : e.forkOk .stage1 = true)
    (hc1 : 1 ≤ c) (hc2 : c ≤ 255)
    (hrun : (e.childRun .stage1).wstatus = W_EXITCODE c) :
    (main e).exitCode = c ∧ (e.childRun .stage1 = .execFailed → c = EXIT_FAILURE) := by
  have hne : W_EXITCODE c ≠ 0 := W_EXITCODE_ne_zero c hc1 (by omega)
  have hw : WEXITSTATUS (W_EXITCODE c) = c := WEXITSTATUS_exitcode c (by omega)
  constructor
  · have hx : exitCodeOf c = c := Nat.mod_eq_of_lt (by omega)
    simp [main, mainLaunch, St.wait, St.forked, St.log, St.exit, sysWait_single, hargc, hfork,
      hrun, hne, hw, hx]
  · intro hx
    rw [hx] at hrun
    have hst := congrArg WEXITSTATUS hrun
    rw [hw] at hst
    rw [← hst]
    decide

theorem main_propagates_stage1_code_witness :
    (main envExecFails).exitCode = 1
    ∧ (envExecFails.childRun .stage1 = .execFailed → 1 = EXIT_FAILURE) :=
  main_propagates_stage1_code envExecFails 1 (by decide) (by decide) (by decide) (by decide)
    (by decide)

/-- C3: when stage 1 ends with a non-zero wait status the orchestrator performs exactly a
fork, a wait and an exit: nothing after the first wait creates a pipe, opens the output file
or forks, one child is created in all, and the descriptor table is the initial one. -/
theorem main_short_circuit (e : Env)
    (hargc : e.argc = 5) (hfork : e.forkOk .stage1 = true)
    (hs1 : (e.childRun .stage1).wstatus ≠ 0) :
    (main e).st.trace
        = [.fork .stage1 true, .wait (some .stage1),
           .exit (WEXITSTATUS (e.childRun .stage1).wstatus)]
    ∧ (∀ op ∈ afterFirstWait (main e).st.trace, op.launches = false)
    ∧ created (main e).st.trace = [.stage1]
    ∧ (main e).st.fds = e.table0 := by
  have htr : (main e).st.trace
      = [.fork .stage1 true, .wait (some .stage1),
         .exit (WEXITSTATUS (e.childRun .stage1).wstatus)] := by
    simp [main, mainLaunch, St.wait, St.forked, St.log, St.exit, sysWait_single, hargc, hfork,
      hs1, exitCodeOf_status]
  refine ⟨htr, ?_, ?_, ?_⟩
  · rw [htr]
    simp [afterFirstWait, SysOp.launches]
  · rw [htr]
    simp [created]
  · simp [main, mainLaunch, St.wait, St.forked, St.log, St.exit, sysWait_single, hargc, hfork,
      hs1]

theorem main_short_circuit_witness :
    (main envStage1Exits3).st.trace
        = [.fork .stage1 true, .wait (some .stage1),
           .exit (WEXITSTATUS (envStage1Exits3.childRun .stage1).wstatus)]
    ∧ (∀ op ∈ afterFirstWait (main envStage1Exits3).st.trace, op.launches = false)
    ∧ created (main envStage1Exits3).st.trace = [.stage1]
    ∧ (main envStage1Exits3).st.fds = envStage1Exits3.table0 :=
  main_short_circuit envStage1Exits3 (by decide) (by decide) (by decide)

/-- The first and the second `fork` are checked: when either fails the orchestrator reports
it and exits with `EXIT_FAILURE`. -/
theorem main_fork_failure_checked (e : Env) (hargc : e.argc = 5) :
    (e.forkOk .stage1 = false →
        (main e).exitCode = EXIT_FAILURE ∧ SysOp.stderr "fork 1" ∈ (main e).st.trace)
    ∧ (e.forkOk .stage1 = true → (e.childRun .stage1).wstatus = 0 →
        e.pipeRes.isSome = true → e.openRes.isSome = true → e.forkOk .stage2 = false →
        (main e).exitCode = EXIT_FAILURE ∧ SysOp.stderr "fork 2" ∈ (main e).st.trace) := by
  constructor
  · intro hf1
    simp [main, mainLaunch, St.fail, St.log, St.exit, hargc, hf1, exitCodeOf, EXIT_FAILURE]
  · intro hf1 hs1 hpipe hopen hf2
    obtain ⟨⟨r, w, t1⟩, hp⟩ := Option.isSome_iff_exists.mp hpipe
    have hp2 : sysPipe e.table0 e.nofile e.pipeOk = some (r, w, t1) := hp
    simp only [Env.openRes, hp] at hopen
    obtain ⟨⟨f, t2⟩, ho⟩ := Option.isSome_iff_exists.mp hopen
    simp [main, mainLaunch, mainSpawn, St.wait, St.forked, St.fail, St.log, St.exit,
      sysWait_single, hargc, hf1, hs1, hp2, ho, hf2, exitCodeOf, EXIT_FAILURE]

/-- C4: evaluation at the failing input.  When the third `fork` fails the orchestrator does
not exit with `EXIT_FAILURE`: it goes on to close the pipe, waits twice (the second `wait`
finds no child) and exits with a code computed from the statuses, here 0. -/
theorem main_ignores_fork3_failure :
    SysOp.fork .stage3 false ∈ (main envFork3Fails).st.trace
    ∧ SysOp.wait none ∈ (main envFork3Fails).st.trace
    ∧ SysOp.stderr "fork 2" ∉ (main envFork3Fails).st.trace
    ∧ (main envFork3Fails).exitCode = 0
    ∧ (main envFork3Fails).exitCode ≠ EXIT_FAILURE := by
  set_option maxRecDepth 100000 in decide

/-- C5: on every run, a fork of a pipeline child (stage 2 or stage 3) is preceded in the
trace by an open of the output file; and when stage 1 has succeeded, the pipe exists and the
open fails, the orchestrator exits with `EXIT_FAILURE` having created the stage-1 child
only. -/
theorem main_open_precedes_pipeline_forks (e : Env) :
    (∀ pre post c ok, (main e).st.trace = pre ++ SysOp.fork c ok :: post → c ≠ .stage1 →
        ∃ res, SysOp.openFile res ∈ pre)
    ∧ (e.argc = 5 → e.forkOk .stage1 = true → (e.childRun .stage1).wstatus = 0 →
        e.pipeRes.isSome = true → e.openRes.isSome = false →
        (main e).exitCode = EXIT_FAILURE ∧ created (main e).st.trace = [.stage1]
        ∧ SysOp.openFile none ∈ (main e).st.trace) := by
  constructor
  · intro pre post c ok hsplit hc
    refine forksAfterOpen_spec _ ?_ pre post c ok hsplit hc
    by_cases hargc : e.argc = 5
    · cases hf1 : e.forkOk .stage1
      · simp [main, mainLaunch, St.fail, St.log, St.exit, hargc, hf1, forksAfterOpen]
      · by_cases hs1 : (e.childRun .stage1).wstatus = 0
        · cases hp : sysPipe e.table0 e.nofile e.pipeOk with
          | none =>
            simp [main, mainLaunch, St.wait, St.forked, St.fail, St.log, St.exit,
              sysWait_single, hargc, hf1, hs1, hp, forksAfterOpen]
          | some p =>
            obtain ⟨r, w, t1⟩ := p
            cases ho : sysOpen t1 e.nofile e.openOk with
            | none =>
              simp [main, mainLaunch, St.wait, St.forked, St.fail, St.log, St.exit,
                sysWait_single, hargc, hf1, hs1, hp, ho, forksAfterOpen]
            | some q =>
              obtain ⟨f, t2⟩ := q
              cases hf2 : e.forkOk .stage2
              · simp [main, mainLaunch, mainSpawn, St.wait, St.forked, St.fail, St.log,
                  St.exit, sysWait_single, hargc, hf1, hs1, hp, ho, hf2, forksAfterOpen]
              · cases hf3 : e.forkOk .stage3
                · simp [main, mainLaunch, mainSpawn, mainWait, St.wait, St.forked, St.log,
                    St.exit, St.close, sysWait_single, sysWait_nil, hargc, hf1, hs1, hp, ho,
                    hf2, hf3, forksAfterOpen]
                · rcases sysWait_pair .stage2 .stage3 (by decide) (e.pick 1) with h | h <;>
                  simp [main, mainLaunch, mainSpawn, mainWait, St.wait, St.forked, St.log,
                    St.exit, St.close, sysWait_single, hargc, hf1, hs1, hp, ho, hf2, hf3, h,
                    forksAfterOpen]
        · simp [main, mainLaunch, St.wait, St.forked, St.fail, St.log, St.exit,
            sysWait_single, hargc, hf1, hs1, forksAfterOpen]
    · simp [main, mainLaunch, St.fail, St.log, St.exit, hargc, forksAfterOpen]
  · intro hargc hf1 hs1 hpipe hopen
    obtain ⟨⟨r, w, t1⟩, hp⟩ := Option.isSome_iff_exists.mp hpipe
    have hp2 : sysPipe e.table0 e.nofile e.pipeOk = some (r, w, t1) := hp
    simp only [Env.openRes, hp] at hopen
    have hopen : sysOpen t1 e.nofile e.openOk = none := by
      cases ho : sysOpen t1 e.nofile e.openOk with
      | none => rfl
      | some q => simp [ho] at hopen
    simp [main, mainLaunch, St.wait, St.forked, St.fail, St.log, St.exit, sysWait_single,
      hargc, hf1, hs1, hp2, hopen, created, exitCodeOf, EXIT_FAILURE]

set_option maxRecDepth 100000 in
theorem main_open_precedes_pipeline_forks_witness :
    (main envOpenFails).exitCode = EXIT_FAILURE ∧ created (main envOpenFails).st.trace = [.stage1]
    ∧ SysOp.openFile none ∈ (main envOpenFails).st.trace :=
  (main_open_precedes_pipeline_forks envOpenFails).2 (by decide) (by decide) (by decide)
    (by decide) (by decide)

/-- C7: on every run the children reaped by `wait` are exactly the children created, each
one once, and no created child is left unreaped when the orchestrator exits. -/
theorem main_reaps_every_child (e : Env) :
    (reaped (main e).st.trace).Perm (created (main e).st.trace)
    ∧ (created (main e).st.trace).Nodup
    ∧ (main e).st.unreaped = [] := by
  by_cases hargc : e.argc = 5
  · cases hf1 : e.forkOk .stage1
    · simp [main, mainLaunch, St.fail, St.log, St.exit, hargc, hf1, created, reaped]
    · by_cases hs1 : (e.childRun .stage1).wstatus = 0
      · cases hp : sysPipe e.table0 e.nofile e.pipeOk with
        | none =>
          simp [main, mainLaunch, St.wait, St.forked, St.fail, St.log, St.exit,
            sysWait_single, hargc, hf1, hs1, hp, created, reaped]
        | some p =>
          obtain ⟨r, w, t1⟩ := p
          cases ho : sysOpen t1 e.nofile e.openOk with
          | none =>
            simp [main, mainLaunch, St.wait, St.forked, St.fail, St.log, St.exit,
              sysWait_single, hargc, hf1, hs1, hp, ho, created, reaped]
          | some q =>
            obtain ⟨f, t2⟩ := q
            cases hf2 : e.forkOk .stage2
            · simp [main, mainLaunch, mainSpawn, St.wait, St.forked, St.fail, St.log,
                St.exit, sysWait_single, hargc, hf1, hs1, hp, ho, hf2, created, reaped]
            · cases hf3 : e.forkOk .stage3
              · simp [main, mainLaunch, mainSpawn, mainWait, St.wait, St.forked, St.log,
                  St.exit, St.close, sysWait_single, sysWait_nil, hargc, hf1, hs1, hp, ho,
                  hf2, hf3, created, reaped]
              · rcases sysWait_pair .stage2 .stage3 (by decide) (e.pick 1) with h | h
                · simp [main, mainLaunch, mainSpawn, mainWait, St.wait, St.forked, St.log,
                    St.exit, St.close, sysWait_single, hargc, hf1, hs1, hp, ho, hf2, hf3, h,
                    created, reaped]
                · simp [main, mainLaunch, mainSpawn, mainWait, St.wait, St.forked, St.log,
                    St.exit, St.close, sysWait_single, hargc, hf1, hs1, hp, ho, hf2, hf3, h,
                    created, reaped]
                  decide
      · simp [main, mainLaunch, St.wait, St.forked, St.fail, St.log, St.exit,
          sysWait_single, hargc, hf1, hs1, created, reaped]
  · simp [main, mainLaunch, St.fail, St.log, St.exit, hargc, created, reaped]

/-- C8, counterexample: stage 1 is killed by signal 9, so its wait status is 9, not 0, and
the orchestrator exits with code 0 after creating that child. -/
theorem main_exit_zero_counterexample :
    (envStage1Killed.childRun .stage1).wstatus ≠ 0
    ∧ created (main envStage1Killed).st.trace = [.stage1]
    ∧ (main envStage1Killed).exitCode = 0 := by
  decide

/-- C8, amended: when the orchestrator exits with code 0, bits 8..15 of the wait status of
every child it created are 0; so with four arguments and stage 1 created, a stage-1 wait
status whose bits 8..15 are not 0 (a normal exit with a non-zero code) gives a non-zero
exit code. -/
theorem main_exit_zero_only_if (e : Env) (h0 : (main e).exitCode = 0) :
    (∀ c ∈ created (main e).st.trace, WEXITSTATUS (e.childRun c).wstatus = 0)
    ∧ (e.argc = 5 → e.forkOk .stage1 = true →
        WEXITSTATUS (e.childRun .stage1).wstatus = 0) := by
  have hz : WEXITSTATUS 0 = 0 := by decide
  have h1 : exitCodeOf EXIT_FAILURE ≠ 0 := by decide
  by_cases hargc : e.argc = 5
  · cases hf1 : e.forkOk .stage1
    · simp [main, mainLaunch, St.fail, St.log, St.exit, hargc, hf1, created]
    · by_cases hs1 : (e.childRun .stage1).wstatus = 0
      · cases hp : sysPipe e.table0 e.nofile e.pipeOk with
        | none =>
          simp [main, mainLaunch, St.wait, St.forked, St.fail, St.log, St.exit,
            sysWait_single, hargc, hf1, hs1, hp, h1] at h0
        | some p =>
          obtain ⟨r, w, t1⟩ := p
          cases ho : sysOpen t1 e.nofile e.openOk with
          | none =>
            simp [main, mainLaunch, St.wait, St.forked, St.fail, St.log, St.exit,
              sysWait_single, hargc, hf1, hs1, hp, ho, h1] at h0
          | some q =>
            obtain ⟨f, t2⟩ := q
            cases hf2 : e.forkOk .stage2
            · simp [main, mainLaunch, mainSpawn, St.wait, St.forked, St.fail, St.log,
                St.exit, sysWait_single, hargc, hf1, hs1, hp, ho, hf2, h1] at h0
            · cases hf3 : e.forkOk .stage3
              · simp [main, mainLaunch, mainSpawn, mainWait, St.wait, St.forked, St.log,
                  St.exit, St.close, sysWait_single, sysWait_nil, hargc, hf1, hs1, hp, ho,
                  hf2, hf3, exitCodeOf_or, created, hz] at h0 ⊢
                exact (or_eq_zero h0).1
              · rcases sysWait_pair .stage2 .stage3 (by decide) (e.pick 1) with h | h
                · simp [main, mainLaunch, mainSpawn, mainWait, St.wait, St.forked, St.log,
                    St.exit, St.close, sysWait_single, hargc, hf1, hs1, hp, ho, hf2, hf3, h,
                    exitCodeOf_or, created, hz] at h0 ⊢
                  exact or_eq_zero h0
                · simp [main, mainLaunch, mainSpawn, mainWait, St.wait, St.forked, St.log,
                    St.exit, St.close, sysWait_single, hargc, hf1, hs1, hp, ho, hf2, hf3, h,
                    exitCodeOf_or, created, hz] at h0 ⊢
                  exact (or_eq_zero h0).symm
      · simp [main, mainLaunch, St.wait, St.forked, St.fail, St.log, St.exit,
          sysWait_single, hargc, hf1, hs1, exitCodeOf_status, created] at h0 ⊢
        exact h0
  · simp [main, mainLaunch, St.fail, St.log, St.exit, hargc, h1] at h0

set_option maxRecDepth 100000 in
theorem main_exit_zero_only_if_witness :
    (∀ c ∈ created (main envAllZero).st.trace, WEXITSTATUS (envAllZero.childRun c).wstatus = 0)
    ∧ (envAllZero.argc = 5 → envAllZero.forkOk .stage1 = true →
        WEXITSTATUS (envAllZero.childRun .stage1).wstatus = 0) :=
  main_exit_zero_only_if envAllZero (by decide)

theorem table0_ne_pipeRead (e : Env) (n : Nat) : e.table0 n ≠ some .pipeRead := by
  unfold Env.table0
  cases e.fds0 n <;> simp

theorem table0_ne_pipeWrite (e : Env) (n : Nat) : e.table0 n ≠ some .pipeWrite := by
  unfold Env.table0
  cases e.fds0 n <;> simp

theorem sysPipe_some {t t1 : FdTable} {limit r w : Nat} {ok : Bool}
    (h : sysPipe t limit ok = some (r, w, t1)) :
    t r = none ∧ w ≠ r ∧ t w = none ∧ t1 = (t.install r .pipeRead).install w .pipeWrite := by
  unfold sysPipe at h
  cases ok with
  | false => simp at h
  | true =>
    cases h1 : lowestFree t limit with
    | none => simp [h1] at h
    | some r0 =>
      cases h2 : lowestFree (t.install r0 .pipeRead) limit with
      | none => simp [h1, h2] at h
      | some w0 =>
        simp only [h1, h2, if_true, Option.some.injEq, Prod.mk.injEq] at h
        obtain ⟨rfl, rfl, rfl⟩ := h
        have hr := lowestFree_free h1
        have hw := lowestFree_free h2
        have hne : w0 ≠ r0 := by
          intro heq
          simp [FdTable.install, heq] at hw
        refine ⟨hr, hne, ?_, rfl⟩
        simpa [FdTable.install, hne] using hw

theorem sysOpen_some {t t2 : FdTable} {limit f : Nat} {ok : Bool}
    (h : sysOpen t limit ok = some (f, t2)) :
    t f = none ∧ t2 = t.install f .outFile := by
  unfold sysOpen at h
  cases ok with
  | false => simp at h
  | true =>
    cases h1 : lowestFree t limit with
    | none => simp [h1] at h
    | some f0 =>
      simp only [h1, if_true, Option.some.injEq, Prod.mk.injEq] at h
      obtain ⟨rfl, rfl⟩ := h
      exact ⟨lowestFree_free h1, rfl⟩

/-- C6, counterexample: in the run where everything succeeds, `open` returns descriptor 5,
both pipeline children are created, and at line 100 descriptor 5 of the orchestrator still
refers to the output file. -/
theorem parent_keeps_output_file_counterexample :
    SysOp.openFile (some 5) ∈ (main envOk).st.trace
    ∧ (stateAtWait envOk).map (fun s => created s.trace) = some [.stage1, .stage2, .stage3]
    ∧ (stateAtWait envOk).map (fun s => s.fds 5) = some (some .outFile)
    ∧ (main envOk).st.fds 5 = some .outFile := by
  set_option maxRecDepth 100000 in decide

/-- C6, amended: when the orchestrator reaches line 100 with stages 2 and 3 both created,
the descriptors `r` and `w` that `pipe` returned are closed in its table and no descriptor
of the table refers to either endpoint of the pipe, both having been closed by the two
`close` calls of the orchestrator; the descriptor `f` that `open` returned still refers to
the output file, and the table stays so until the orchestrator exits. -/
theorem parent_closes_pipe_ends (e : Env)
    (hboth : (stateAtWait e).map (fun s => created s.trace)
      = some [.stage1, .stage2, .stage3]) :
    ∃ s r w f, stateAtWait e = some s
      ∧ SysOp.pipe (some (r, w)) ∈ s.trace ∧ SysOp.openFile (some f) ∈ s.trace
      ∧ SysOp.close r ∈ s.trace ∧ SysOp.close w ∈ s.trace
      ∧ s.fds r = none ∧ s.fds w = none
      ∧ (∀ n, s.fds n ≠ some .pipeRead ∧ s.fds n ≠ some .pipeWrite)
      ∧ s.fds f = some .outFile
      ∧ (main e).st.fds = s.fds := by
  by_cases hargc : e.argc = 5
  · cases hf1 : e.forkOk .stage1
    · simp [stateAtWait, mainLaunch, hargc, hf1] at hboth
    · by_cases hs1 : (e.childRun .stage1).wstatus = 0
      · cases hp : sysPipe e.table0 e.nofile e.pipeOk with
        | none =>
          simp [stateAtWait, mainLaunch, St.wait, St.forked, St.log, sysWait_single, hargc, hf1,
            hs1, hp] at hboth
        | some p =>
          obtain ⟨r, w, t1⟩ := p
          cases ho : sysOpen t1 e.nofile e.openOk with
          | none =>
            simp [stateAtWait, mainLaunch, St.wait, St.forked, St.log, sysWait_single, hargc,
              hf1, hs1, hp, ho] at hboth
          | some q =>
            obtain ⟨f, t2⟩ := q
            cases hf2 : e.forkOk .stage2
            · simp [stateAtWait, mainLaunch, mainSpawn, St.wait, St.forked, St.log,
                sysWait_single, hargc, hf1, hs1, hp, ho, hf2] at hboth
            · cases hf3 : e.forkOk .stage3
              · simp [stateAtWait, mainLaunch, mainSpawn, St.wait, St.forked, St.log, St.close,
                  sysWait_single, hargc, hf1, hs1, hp, ho, hf2, hf3, created] at hboth
              · obtain ⟨hr, hwr, hw, rfl⟩ := sysPipe_some hp
                obtain ⟨hf, rfl⟩ := sysOpen_some ho
                have hfr : f ≠ r := by
                  intro heq
                  simp [FdTable.install, heq, hwr.symm] at hf
                have hfw : f ≠ w := by
                  intro heq
                  simp [FdTable.install, heq] at hf
                have hrd := table0_ne_pipeRead e
                have hwt := table0_ne_pipeWrite e
                cases hsw : stateAtWait e with
                | none => simp [hsw] at hboth
                | some s =>
                  have hmain : (main e).st.fds = s.fds := by
                    have hl : mainLaunch e = .inr s := by
                      unfold stateAtWait at hsw
                      cases hm : mainLaunch e with
                      | inl o => simp [hm] at hsw
                      | inr s2 =>
                        simp only [hm, Option.some.injEq] at hsw
                        rw [hsw]
                    simp only [main, hl, mainWait, St.wait, St.exit, St.log]
                    cases sysWait s.unreaped (e.pick 1) with
                    | none =>
                      cases sysWait s.unreaped (e.pick 2) with
                      | none => rfl
                      | some p2 => rfl
                    | some p1 =>
                      cases sysWait p1.2 (e.pick 2) with
                      | none => rfl
                      | some p2 => rfl
                  simp [stateAtWait, mainLaunch, mainSpawn, St.wait, St.forked, St.log,
                    St.close, sysWait_single, hargc, hf1, hs1, hp, ho, hf2, hf3] at hsw
                  subst hsw
                  refine ⟨_, r, w, f, rfl, ?_⟩
                  simp only [List.mem_cons, true_or, or_true, true_and]
                  refine ⟨?_, ?_, ?_, ?_, hmain⟩
                  · simp [close, FdTable.install, hwr, Ne.symm hwr]
                  · simp [close]
                  · intro n
                    have h1 := hrd n
                    have h2 := hwt n
                    by_cases hnw : n = w
                    · simp [close, hnw]
                    · by_cases hnr : n = r
                      · simp [close, hnr, Ne.symm hwr]
                      · by_cases hnf : n = f
                        · simp [close, FdTable.install, hnf, hfr, hfw]
                        · simp [close, FdTable.install, hnw, hnr, hnf, h1, h2]
                  · simp [close, FdTable.install, hfr, hfw]
      · simp [stateAtWait, mainLaunch, St.wait, St.forked, St.log, sysWait_single, hargc, hf1,
          hs1] at hboth
  · simp [stateAtWait, mainLaunch, hargc] at hboth

set_option maxRecDepth 100000 in
theorem parent_closes_pipe_ends_witness :
    ∃ s r w f, stateAtWait envOk = some s
      ∧ SysOp.pipe (some (r, w)) ∈ s.trace ∧ SysOp.openFile (some f) ∈ s.trace
      ∧ SysOp.close r ∈ s.trace ∧ SysOp.close w ∈ s.trace
      ∧ s.fds r = none ∧ s.fds w = none
      ∧ (∀ n, s.fds n ≠ some .pipeRead ∧ s.fds n ≠ some .pipeWrite)
      ∧ s.fds f = some .outFile
      ∧ (main envOk).st.fds = s.fds :=
  parent_closes_pipe_ends envOk (by decide)

theorem dup2_of_some {t : FdTable} {oldfd newfd : Nat} {o : FileObj} (h : t oldfd = some o) :
    dup2 t oldfd newfd = t.install newfd o := by
  simp [dup2, h]

/-- C9, counterexample: started with descriptor 0 closed, the orchestrator gets the read
endpoint of the pipe as descriptor 0, the write endpoint as 3 and the output file as 4,
pairwise distinct; the stage-3 child closes descriptor 0 before it duplicates it, and at
its `execlp` descriptor 0 is closed instead of referring to the read endpoint. -/
theorem stage3Child_stdin_counterexample :
    SysOp.pipe (some (0, 3)) ∈ (main envNoStdin).st.trace
    ∧ SysOp.openFile (some 4) ∈ (main envNoStdin).st.trace
    ∧ (main envNoStdin).st.child3.map (fun t => t 0) = some none
    ∧ (main envNoStdin).st.child3.map (fun t => t 0) ≠ some (some .pipeRead) := by
  set_option maxRecDepth 100000 in decide

theorem stage3Child_table (t : FdTable) (r w f : Nat)
    (hr : t r = some .pipeRead) (hw : ∀ n, t n = some .pipeWrite ↔ n = w)
    (hf : t f = some .outFile) (hr2 : 2 ≤ r) (hf2 : 2 ≤ f) :
    stage3Child t r w f 0 = some .pipeRead
    ∧ stage3Child t r w f 1 = some .outFile
    ∧ ∀ n, stage3Child t r w f n ≠ some .pipeWrite := by
  have hrw : r ≠ w := by
    intro heq
    have := (hw r).mpr heq
    rw [hr] at this
    simp at this
  have hfw : f ≠ w := by
    intro heq
    have := (hw f).mpr heq
    rw [hf] at this
    simp at this
  have hrf : r ≠ f := by
    intro heq
    rw [heq, hf] at hr
    simp at hr
  have hr0 : r ≠ 0 := by omega
  have hr1 : r ≠ 1 := by omega
  have hf0 : f ≠ 0 := by omega
  have hf1 : f ≠ 1 := by omega
  have h3 : close (close (close t w) STDIN_FILENO) STDOUT_FILENO r = some .pipeRead := by
    simp [close, STDIN_FILENO, STDOUT_FILENO, hr, hrw, hr0, hr1]
  have h4 : ((close (close (close t w) STDIN_FILENO) STDOUT_FILENO).install STDIN_FILENO
      .pipeRead) f = some .outFile := by
    simp [close, FdTable.install, STDIN_FILENO, STDOUT_FILENO, hf, hfw, hf0, hf1]
  have hform : stage3Child t r w f
      = close (close (((close (close (close t w) STDIN_FILENO) STDOUT_FILENO).install
          STDIN_FILENO .pipeRead).install STDOUT_FILENO .outFile) r) f := by
    simp only [stage3Child]
    rw [dup2_of_some h3, dup2_of_some h4]
  rw [hform]
  refine ⟨?_, ?_, ?_⟩
  · simp [close, FdTable.install, STDIN_FILENO, STDOUT_FILENO, Ne.symm hr0, Ne.symm hf0]
  · simp [close, FdTable.install, STDIN_FILENO, STDOUT_FILENO, Ne.symm hr1, Ne.symm hf1]
  · intro n
    by_cases hnf : n = f
    · simp [close, hnf]
    · by_cases hnr : n = r
      · simp [close, hnr, hrf]
      · by_cases hn1 : n = 1
        · simp [close, FdTable.install, STDOUT_FILENO, hn1, Ne.symm hr1, Ne.symm hf1]
        · by_cases hn0 : n = 0
          · simp [close, FdTable.install, STDIN_FILENO, STDOUT_FILENO, hn0, Ne.symm hr0,
              Ne.symm hf0]
          · by_cases hnw : n = w
            · subst hnw
              simp [close, FdTable.install, STDIN_FILENO, STDOUT_FILENO, hnf, hnr, hn1, hn0]
            · have hne : t n ≠ some .pipeWrite := fun h => hnw ((hw n).mp h)
              simp [close, FdTable.install, STDIN_FILENO, STDOUT_FILENO, hnf, hnr, hn1, hn0,
                hnw, hne]


/-- C9, amended: for descriptor numbers `r`, `w`, `f` that refer to the read endpoint, the
write endpoint (the only descriptor that does) and the output file, hence pairwise
distinct, with `r` and `f` both at least 2, the descriptor operations of the stage-3 child
leave descriptor 0 referring to the read endpoint, descriptor 1 to the output file, and no
descriptor referring to the write endpoint. -/
theorem stage3Child_setup (t : FdTable) (r w f : Nat)
    (hr : t r = some .pipeRead) (hw : ∀ n, t n = some .pipeWrite ↔ n = w)
    (hf : t f = some .outFile) (hr2 : 2 ≤ r) (hf2 : 2 ≤ f) :
    stage3Child t r w f 0 = some .pipeRead
    ∧ stage3Child t r w f 1 = some .outFile
    ∧ ∀ n, stage3Child t r w f n ≠ some .pipeWrite :=
  stage3Child_table t r w f hr hw hf hr2 hf2

theorem lowestFree_ge_two {t : FdTable} {limit n : Nat} (h : lowestFree t limit = some n)
    (h0 : t 0 ≠ none) (h1 : t 1 ≠ none) : 2 ≤ n := by
  have hfree := lowestFree_free h
  by_contra hlt
  have hcases : n = 0 ∨ n = 1 := by omega
  rcases hcases with rfl | rfl
  · exact h0 hfree
  · exact h1 hfree

/-- In a run started with descriptors 0 and 1 open, the stage-3 child reaches its `execlp`
with descriptor 0 on the read endpoint, descriptor 1 on the output file and no descriptor
on the write endpoint. -/
theorem main_child3_table (e : Env) (t3 : FdTable)
    (h0 : e.fds0 0 ≠ none) (h1 : e.fds0 1 ≠ none)
    (hc : (stateAtWait e).bind (fun s => s.child3) = some t3) :
    t3 0 = some .pipeRead ∧ t3 1 = some .outFile ∧ ∀ n, t3 n ≠ some .pipeWrite := by
  have ht0 : e.table0 0 ≠ none := by
    unfold Env.table0
    cases h : e.fds0 0 with
    | none => exact absurd h h0
    | some v => simp
  have ht1 : e.table0 1 ≠ none := by
    unfold Env.table0
    cases h : e.fds0 1 with
    | none => exact absurd h h1
    | some v => simp
  by_cases hargc : e.argc = 5
  · cases hf1 : e.forkOk .stage1
    · simp [stateAtWait, mainLaunch, hargc, hf1] at hc
    · by_cases hs1 : (e.childRun .stage1).wstatus = 0
      · cases hp : sysPipe e.table0 e.nofile e.pipeOk with
        | none =>
          simp [stateAtWait, mainLaunch, St.wait, St.forked, St.log, sysWait_single, hargc, hf1,
            hs1, hp] at hc
        | some p =>
          obtain ⟨r, w, t1⟩ := p
          cases ho : sysOpen t1 e.nofile e.openOk with
          | none =>
            simp [stateAtWait, mainLaunch, St.wait, St.forked, St.log, sysWait_single, hargc,
              hf1, hs1, hp, ho] at hc
          | some q =>
            obtain ⟨f, t2⟩ := q
            cases hf2 : e.forkOk .stage2
            · simp [stateAtWait, mainLaunch, mainSpawn, St.wait, St.forked, St.log,
                sysWait_single, hargc, hf1, hs1, hp, ho, hf2] at hc
            · cases hf3 : e.forkOk .stage3
              · simp [stateAtWait, mainLaunch, mainSpawn, St.wait, St.forked, St.log, St.close,
                  sysWait_single, hargc, hf1, hs1, hp, ho, hf2, hf3] at hc
              · simp [stateAtWait, mainLaunch, mainSpawn, St.wait, St.forked, St.log, St.close,
                  sysWait_single, hargc, hf1, hs1, hp, ho, hf2, hf3] at hc
                subst hc
                have hr2 : 2 ≤ r := by
                  unfold sysPipe at hp
                  cases hok : e.pipeOk with
                  | false => simp [hok] at hp
                  | true =>
                    cases hl : lowestFree e.table0 e.nofile with
                    | none => simp [hok, hl] at hp
                    | some r0 =>
                      cases hl2 : lowestFree (e.table0.install r0 .pipeRead) e.nofile with
                      | none => simp [hok, hl, hl2] at hp
                      | some w0 =>
                        simp only [hok, hl, hl2, if_true, Option.some.injEq,
                          Prod.mk.injEq] at hp
                        obtain ⟨rfl, -, -⟩ := hp
                        exact lowestFree_ge_two hl ht0 ht1
                obtain ⟨hr, hwr, hw, rfl⟩ := sysPipe_some hp
                have hf2 : 2 ≤ f := by
                  unfold sysOpen at ho
                  cases hok : e.openOk with
                  | false => simp [hok] at ho
                  | true =>
                    cases hl : lowestFree ((e.table0.install r .pipeRead).install w .pipeWrite)
                        e.nofile with
                    | none => simp [hok, hl] at ho
                    | some f0 =>
                      simp only [hok, hl, if_true, Option.some.injEq, Prod.mk.injEq] at ho
                      obtain ⟨rfl, -⟩ := ho
                      refine lowestFree_ge_two hl ?_ ?_
                      · by_cases h0w : 0 = w
                        · simp [FdTable.install, h0w]
                        · by_cases h0r : 0 = r
                          · omega
                          · simpa [FdTable.install, h0w, h0r] using ht0
                      · by_cases h1w : 1 = w
                        · simp [FdTable.install, h1w]
                        · by_cases h1r : 1 = r
                          · omega
                          · simpa [FdTable.install, h1w, h1r] using ht1
                obtain ⟨hf, rfl⟩ := sysOpen_some ho
                have hfr : f ≠ r := by
                  intro heq
                  simp [FdTable.install, heq, hwr.symm] at hf
                have hfw : f ≠ w := by
                  intro heq
                  simp [FdTable.install, heq] at hf
                refine stage3Child_table _ r w f ?_ ?_ ?_ hr2 hf2
                · simp [FdTable.install, Ne.symm hfr, Ne.symm hwr]
                · intro n
                  have hwt := table0_ne_pipeWrite e n
                  by_cases hnf : n = f
                  · simp [FdTable.install, hnf, hfw]
                  · by_cases hnw : n = w
                    · simp [FdTable.install, hnw, Ne.symm hfw]
                    · by_cases hnr : n = r
                      · simp [FdTable.install, hnr, Ne.symm hfr, Ne.symm hwr]
                      · simp [FdTable.install, hnf, hnw, hnr, hwt]
                · simp [FdTable.install]
      · simp [stateAtWait, mainLaunch, St.wait, St.forked, St.log, sysWait_single, hargc, hf1,
          hs1] at hc
  · simp [stateAtWait, mainLaunch, hargc] at hc

theorem stage3Child_setup_witness :
    stage3Child tableOk 3 4 5 0 = some .pipeRead
    ∧ stage3Child tableOk 3 4 5 1 = some .outFile
    ∧ ∀ n, stage3Child tableOk 3 4 5 n ≠ some .pipeWrite :=
  stage3Child_setup tableOk 3 4 5 (by decide)
    (by
      intro n
      by_cases h5 : n = 5
      · simp [tableOk, FdTable.install, h5]
      · by_cases h4 : n = 4
        · simp [tableOk, FdTable.install, h4]
        · by_cases h3 : n = 3
          · simp [tableOk, FdTable.install, h3]
          · have := table0_ne_pipeWrite envOk n
            simp [tableOk, FdTable.install, h5, h4, h3, this])
    (by decide) (by decide) (by decide)

end Task3

namespace Task2

open Libc

/-! ## The directory lister: stores of `traverse` to the path buffer -/

theorem takeWhile_cstr (p rest : List Nat) (hnz : ∀ c ∈ p, c ≠ 0) :
    (p ++ 0 :: rest).takeWhile (fun c => c != 0) = p := by
  induction p with
  | nil => simp
  | cons a p ih =>
    have ha : a ≠ 0 := hnz a (List.mem_cons_self _ _)
    have hp : ∀ c ∈ p, c ≠ 0 := fun c hc => hnz c (List.mem_cons_of_mem _ hc)
    simp [List.takeWhile_cons, ha, ih hp]

theorem pathBuf_length (p : CStr) (fill : Nat) (h : p.length < PATH_MAX) :
    (pathBuf p fill).bytes.length = PATH_MAX := by
  simp [pathBuf]
  omega

theorem pathBuf_writes (p : CStr) (fill : Nat) : (pathBuf p fill).writes = [] := rfl

theorem pathBuf_cstr (p : CStr) (fill : Nat) (h : p.length < PATH_MAX)
    (hnz : ∀ c ∈ p, c ≠ 0) : (pathBuf p fill).cstr = p := by
  unfold Buf.cstr pathBuf
  rw [List.take_of_length_le (by simp; omega)]
  simpa using takeWhile_cstr p _ hnz

theorem traverseLoop_at_PATH_MAX (lsHelper : Buf → Nat → Option (Buf × Nat)) (depth : Nat)
    (entries : List CStr) (b : Buf) (res : Nat) :
    (traverseLoop lsHelper PATH_MAX depth entries b res).map (fun r => r.1.writes)
      = some (b.writes ++ List.replicate entries.length PATH_MAX) := by
  induction entries generalizing b res with
  | nil => simp [traverseLoop]
  | cons nm rest ih =>
    have hno : ¬ (PATH_MAX + nm.length < PATH_MAX) := by omega
    simp only [traverseLoop, hno, if_false]
    rw [ih]
    simp [Buf.store, List.replicate_succ]

theorem traverse_at_limit (lsHelper : Buf → Nat → Option (Buf × Nat)) (b : Buf)
    (entries : List CStr) (depth : Nat) (h : strlen b = PATH_MAX - 1) :
    (traverse lsHelper b entries depth).map (fun r => r.1.writes)
      = some (b.writes ++ [PATH_MAX - 1] ++ List.replicate entries.length PATH_MAX
          ++ [PATH_MAX - 1]) := by
  have h1 : PATH_MAX - 1 + 1 = PATH_MAX := by decide
  have hloop := traverseLoop_at_PATH_MAX lsHelper depth entries (b.store (PATH_MAX - 1) 47)
    EXIT_SUCCESS
  simp only [traverse, h, h1]
  cases hl : traverseLoop lsHelper PATH_MAX depth entries (b.store (PATH_MAX - 1) 47)
      EXIT_SUCCESS with
  | none => simp [hl] at hloop
  | some r =>
    simp only [hl, Option.map_some', Option.some.injEq] at hloop
    simp [Buf.store, hloop]

theorem ls_helper_of_dir (fs : Fs) (fuel : Nat) (b : Buf) (depth : Nat) (names : List CStr)
    (hd : fs.isDir b.cstr = some true) (ho : fs.opendir b.cstr = some names) :
    ls_helper fs (fuel + 1) b depth
      = traverse (ls_helper fs fuel) b (qsort (read_entries names)) depth := by
  rw [ls_helper]
  simp only [hd, ho]

theorem ls_of_realpath (fs : Fs) (fill fuel : Nat) (dir_path p : CStr)
    (ha : fs.access dir_path = true) (hr : fs.realpath dir_path = some p) :
    ls fs true fill fuel dir_path = ls_helper fs fuel (pathBuf p fill) 1 := by
  simp [ls, ha, hr]

theorem deepPath_length : deepPath.length = PATH_MAX - 1 := by
  simp only [deepPath, List.length_append, List.length_flatten, List.map_replicate,
    List.length_cons, List.length_replicate, List.sum_replicate, smul_eq_mul]
  decide

theorem deepPath_nonzero : ∀ c ∈ deepPath, c ≠ 0 := by
  intro c hc
  simp only [deepPath, List.mem_append, List.mem_flatten, List.mem_replicate, List.mem_cons] at hc
  rcases hc with ⟨l, ⟨-, rfl⟩, hcl⟩ | hc | ⟨-, hc⟩
  · simp only [List.mem_cons, List.mem_replicate] at hcl
    rcases hcl with hcl | ⟨-, hcl⟩ <;> omega
  · omega
  · omega

/-- C10: evaluation at the failing input.  `ls` on a directory whose absolute path has
`PATH_MAX - 1` bytes and that has one visible entry: the buffer has `PATH_MAX` bytes, the
path in it is NUL-terminated, and `traverse` stores to the indices `PATH_MAX - 1`,
`PATH_MAX` and `PATH_MAX - 1`; the second store is outside the buffer. -/
theorem traverse_writes_past_buffer :
    deepPath.length = PATH_MAX - 1
    ∧ (pathBuf deepPath 0).bytes.length = PATH_MAX
    ∧ (pathBuf deepPath 0).cstr = deepPath
    ∧ (ls deepFs true 0 2 [46]).map (fun r => r.1.writes)
        = some [PATH_MAX - 1, PATH_MAX, PATH_MAX - 1]
    ∧ ¬ (∀ i ∈ ((ls deepFs true 0 2 [46]).map (fun r => r.1.writes)).getD [], i < PATH_MAX) := by
  have hlen := deepPath_length
  have hlt : deepPath.length < PATH_MAX := by rw [hlen]; decide
  have hcstr := pathBuf_cstr deepPath 0 hlt deepPath_nonzero
  have hentries : qsort (read_entries [[46], [46, 46], [98]]) = [[98]] := by decide
  have hstr : strlen (pathBuf deepPath 0) = PATH_MAX - 1 := by
    rw [strlen, hcstr, hlen]
  have hw : (ls deepFs true 0 2 [46]).map (fun r => r.1.writes)
      = some [PATH_MAX - 1, PATH_MAX, PATH_MAX - 1] := by
    have hdir : deepFs.isDir (pathBuf deepPath 0).cstr = some true := by
      rw [hcstr]
      simp only [deepFs, decide_True]
    have htrav := traverse_at_limit (ls_helper deepFs 1) (pathBuf deepPath 0) [[98]] 1 hstr
    rw [ls_of_realpath deepFs 0 2 [46] deepPath rfl rfl,
      ls_helper_of_dir deepFs 1 (pathBuf deepPath 0) 1 _ hdir rfl, hentries, htrav,
      pathBuf_writes]
    rfl
  refine ⟨hlen, pathBuf_length deepPath 0 hlt, hcstr, hw, ?_⟩
  rw [hw]
  simp

end Task2
